import Mathlib

/-!
# Verification of the `swapper` crate

A shallow embedding of the two-party ownership-swap primitive from
`src/lib.rs`.  The crate exposes a factory `swapper()` producing a pair of
endpoints that share one `AtomicPtr` exchange slot and two cross-wired mpsc
channels, and a method `Swapper::swap(&self, our_ref: &mut T)` implementing a
rendezvous:

```
loop {
    let their_ptr = self.contents.swap(ptr::null_mut(), AcqRel);
    if let Some(their_ref) = unsafe { their_ptr.as_mut() } {
        mem::swap(our_ref, their_ref);
        try!(self.notify.send(()));
        return Ok(());
    }
    let their_ptr = self.contents.compare_and_swap(null_mut(), our_ref, AcqRel);
    if their_ptr.is_null() {
        try!(self.wait.recv());
        return Ok(());
    }
}
```

We embed the two threads of a swap pair as a small-step transition system.
Each thread has a program counter marking the atomic points of the loop body;
the shared slot is an `Option Tid` recording which endpoint's `&mut` reference
is published (the `AtomicPtr` is null or holds a pointer to one endpoint's
value binding); each mpsc channel is a queue length plus flags recording
whether its sender or receiver half has been dropped (Rust mpsc semantics:
`send` fails iff the receiver was dropped; `recv` returns a buffered message
if any, fails iff the queue is empty and the sender was dropped, and blocks
otherwise).
-/

/-- Identity of the two endpoints / threads of one swap pair. -/
inductive Tid : Type where
  | A : Tid
  | B : Tid
deriving DecidableEq, Repr

instance : Fintype Tid :=
  ⟨⟨{Tid.A, Tid.B}, by simp⟩, fun t => by cases t <;> simp⟩

/-- `pub struct SwapError;` — the single, field-less error type of the crate. -/
structure SwapError : Type where
deriving DecidableEq, Repr

/-- One mpsc channel `(Sender<()>, Receiver<()>)`: a queue of unit signals
plus liveness flags for its two halves. -/
structure Chan : Type where
  msgs : Nat
  senderDropped : Bool
  receiverDropped : Bool
deriving DecidableEq, Repr

instance : DecidableEq (Except SwapError Unit) := fun a b =>
  match a, b with
  | .ok (), .ok () => isTrue rfl
  | .error ⟨⟩, .error ⟨⟩ => isTrue rfl
  | .ok _, .error _ => isFalse (fun h => by cases h)
  | .error _, .ok _ => isFalse (fun h => by cases h)

/-- Program counter of one thread executing one call to `Swapper::swap`,
marking the atomic points of the loop body:

* `start`      — at the top of the loop, about to do the atomic take-and-clear
                 `self.contents.swap(null_mut())`;
* `consume q`  — the take-and-clear returned endpoint `q`'s published pointer;
                 about to `mem::swap(our_ref, their_ref)`;
* `notifyPeer` — the in-place exchange is done; about to `self.notify.send(())`;
* `publish`    — the take-and-clear returned null; about to attempt the
                 compare-and-swap publish of `our_ref`;
* `waitRecv`   — the publish succeeded; blocked on `self.wait.recv()`;
* `done r`     — the call returned with result `r`. -/
inductive Pc : Type where
  | start : Pc
  | consume : Tid → Pc
  | notifyPeer : Pc
  | publish : Pc
  | waitRecv : Pc
  | done : Except SwapError Unit → Pc
deriving DecidableEq, Repr

/-- Global state of one swap pair: the shared exchange slot, both threads'
program counters and value bindings, and the two channels.  `chA` is the
channel whose `Receiver` endpoint A holds (`wait_a`; its `Sender` is B's
`notify`), and symmetrically `chB`. -/
structure State (α : Type) : Type where
  slot : Option Tid
  pcA : Pc
  pcB : Pc
  valA : α
  valB : α
  chA : Chan
  chB : Chan
deriving DecidableEq, Repr

namespace State

variable {α : Type}

/-- The peer of an endpoint. -/
def Tid.peer : Tid → Tid
  | .A => .B
  | .B => .A

/-- Program counter of thread `t`. -/
def getPc (s : State α) : Tid → Pc
  | .A => s.pcA
  | .B => s.pcB

/-- Set the program counter of thread `t`. -/
def setPc (s : State α) : Tid → Pc → State α
  | .A, p => { s with pcA := p }
  | .B, p => { s with pcB := p }

/-- Value currently held by thread `t`'s binding (`*our_ref`). -/
def getVal (s : State α) : Tid → α
  | .A => s.valA
  | .B => s.valB

/-- Overwrite the value binding of thread `t`. -/
def setVal (s : State α) : Tid → α → State α
  | .A, v => { s with valA := v }
  | .B, v => { s with valB := v }

/-- `mem::swap(our_ref, their_ref)` where `our_ref` is `t`'s binding and
`their_ref` the pointer published by `q`: exchange the two bindings in
place. -/
def swapVals (s : State α) (t q : Tid) : State α :=
  (s.setVal t (s.getVal q)).setVal q (s.getVal t)

/-- Overwrite the shared slot. -/
def setSlot (s : State α) (o : Option Tid) : State α := { s with slot := o }

/-- The channel thread `t` receives on (`self.wait`). -/
def recvChan (s : State α) : Tid → Chan
  | .A => s.chA
  | .B => s.chB

/-- The channel thread `t` sends on (`self.notify`, the peer's wait
channel). -/
def sendChan (s : State α) : Tid → Chan
  | .A => s.chB
  | .B => s.chA

/-- Replace the channel thread `t` receives on. -/
def setRecvChan (s : State α) : Tid → Chan → State α
  | .A, c => { s with chA := c }
  | .B, c => { s with chB := c }

/-- Replace the channel thread `t` sends on. -/
def setSendChan (s : State α) : Tid → Chan → State α
  | .A, c => { s with chB := c }
  | .B, c => { s with chA := c }

end State

open State

/-- One atomic step of thread `t` inside `Swapper::swap`, or `none` if `t`
cannot move (it is blocked on `recv`, or its call has returned).  Each case
mirrors one atomic point of the Rust loop body. -/
def threadStep {α : Type} (s : State α) (t : Tid) : Option (State α) :=
  match s.getPc t with
  | .start =>
      -- let their_ptr = self.contents.swap(ptr::null_mut(), AcqRel);
      match s.slot with
      | some q => some ((s.setSlot none).setPc t (.consume q))
      | none => some ((s.setSlot none).setPc t .publish)
  | .consume q =>
      -- mem::swap(our_ref, their_ref);
      some ((s.swapVals t q).setPc t .notifyPeer)
  | .notifyPeer =>
      -- try!(self.notify.send(()));  return Ok(());
      let c := s.sendChan t
      if c.receiverDropped then
        some (s.setPc t (.done (.error {})))
      else
        some ((s.setSendChan t { c with msgs := c.msgs + 1 }).setPc t
          (.done (.ok ())))
  | .publish =>
      -- let their_ptr = self.contents.compare_and_swap(null_mut(), our_ref, AcqRel);
      match s.slot with
      | none => some ((s.setSlot (some t)).setPc t .waitRecv)
      | some _ => some (s.setPc t .start)
  | .waitRecv =>
      -- try!(self.wait.recv());  return Ok(());
      let c := s.recvChan t
      if c.msgs > 0 then
        some ((s.setRecvChan t { c with msgs := c.msgs - 1 }).setPc t
          (.done (.ok ())))
      else if c.senderDropped then
        some (s.setPc t (.done (.error {})))
      else
        none
  | .done _ => none

/-- Successor states of `s` under an arbitrary interleaving of the two
threads. -/
def succs {α : Type} (s : State α) : List (State α) :=
  (threadStep s .A).toList ++ (threadStep s .B).toList

/-- The interleaving step relation: some thread makes one atomic move. -/
def Step {α : Type} (s s' : State α) : Prop :=
  ∃ t, threadStep s t = some s'

/-- States reachable from `s0` by interleaved thread steps. -/
inductive Reachable {α : Type} (s0 : State α) : State α → Prop where
  | refl : Reachable s0 s0
  | step {s s' : State α} {t : Tid} :
      Reachable s0 s → threadStep s t = some s' → Reachable s0 s'

/-- A fresh channel, as created by `mpsc::channel()`: empty queue, both
halves alive. -/
def chanInit : Chan := { msgs := 0, senderDropped := false, receiverDropped := false }

/-- The state right after `swapper()` when both threads are about to enter
`swap`: empty slot (`AtomicPtr::new(ptr::null_mut())`), both threads at the
loop head, fresh channels, and the two initial values `a` (held by A) and
`b` (held by B). -/
def initState {α : Type} (a b : α) : State α :=
  { slot := none, pcA := .start, pcB := .start, valA := a, valB := b,
    chA := chanInit, chB := chanInit }

/-- Record-level embedding of `pub struct Swapper<T>`: the three fields are
allocation identifiers — `contents` names the shared `Arc<AtomicPtr<T>>`
allocation, `wait` the channel whose `Receiver` this endpoint holds, and
`notify` the channel whose `Sender` it holds. -/
structure SwapperHandle : Type where
  contents : Nat
  wait : Nat
  notify : Nat
deriving DecidableEq, Repr

/-- Embedding of the factory `pub fn swapper<T>()`: one fresh shared slot
(allocation 0), two fresh channels (`(notify_a, wait_a)` = channel 0,
`(notify_b, wait_b)` = channel 1); endpoint A gets `notify = notify_b`,
`wait = wait_a`, endpoint B gets `notify = notify_a`, `wait = wait_b`. -/
def swapper : SwapperHandle × SwapperHandle :=
  let contents := 0
  let chanA := 0
  let chanB := 1
  ({ contents := contents, notify := chanB, wait := chanA },
   { contents := contents, notify := chanA, wait := chanB })

/-- Initial content of the freshly allocated slot:
`AtomicPtr::new(ptr::null_mut())`. -/
def slotInit : Option Tid := none

/-- Both calls have returned `Ok(())`. -/
def bothDoneOk {α : Type} (s : State α) : Prop :=
  s.pcA = .done (.ok ()) ∧ s.pcB = .done (.ok ())

instance {α : Type} (s : State α) : Decidable (bothDoneOk s) := by
  unfold bothDoneOk; infer_instance

example : (initState 1 2).slot = none := rfl

/-! ## Getter/setter interaction lemmas -/

section Accessors

variable {α : Type} (s : State α)

@[simp] theorem getPc_setPc (t : Tid) (p : Pc) : (s.setPc t p).getPc t = p := by
  cases t <;> rfl

@[simp] theorem getPc_setSlot (o : Option Tid) (t : Tid) :
    (s.setSlot o).getPc t = s.getPc t := by cases t <;> rfl

@[simp] theorem getPc_setVal (u t : Tid) (v : α) :
    (s.setVal u v).getPc t = s.getPc t := by cases u <;> cases t <;> rfl

@[simp] theorem getPc_swapVals (u q t : Tid) :
    (s.swapVals u q).getPc t = s.getPc t := by
  cases u <;> cases q <;> cases t <;> rfl

@[simp] theorem getPc_setRecvChan (u : Tid) (c : Chan) (t : Tid) :
    (s.setRecvChan u c).getPc t = s.getPc t := by cases u <;> cases t <;> rfl

@[simp] theorem getPc_setSendChan (u : Tid) (c : Chan) (t : Tid) :
    (s.setSendChan u c).getPc t = s.getPc t := by cases u <;> cases t <;> rfl

@[simp] theorem slot_setPc (t : Tid) (p : Pc) : (s.setPc t p).slot = s.slot := by
  cases t <;> rfl

@[simp] theorem slot_setSlot (o : Option Tid) : (s.setSlot o).slot = o := rfl

@[simp] theorem slot_setVal (t : Tid) (v : α) : (s.setVal t v).slot = s.slot := by
  cases t <;> rfl

@[simp] theorem slot_swapVals (t q : Tid) : (s.swapVals t q).slot = s.slot := by
  cases t <;> cases q <;> rfl

@[simp] theorem slot_setRecvChan (t : Tid) (c : Chan) :
    (s.setRecvChan t c).slot = s.slot := by cases t <;> rfl

@[simp] theorem slot_setSendChan (t : Tid) (c : Chan) :
    (s.setSendChan t c).slot = s.slot := by cases t <;> rfl

@[simp] theorem getVal_setPc (t : Tid) (p : Pc) (u : Tid) :
    (s.setPc t p).getVal u = s.getVal u := by cases t <;> cases u <;> rfl

@[simp] theorem getVal_setSlot (o : Option Tid) (u : Tid) :
    (s.setSlot o).getVal u = s.getVal u := by cases u <;> rfl

@[simp] theorem getVal_setRecvChan (t : Tid) (c : Chan) (u : Tid) :
    (s.setRecvChan t c).getVal u = s.getVal u := by cases t <;> cases u <;> rfl

@[simp] theorem getVal_setSendChan (t : Tid) (c : Chan) (u : Tid) :
    (s.setSendChan t c).getVal u = s.getVal u := by cases t <;> cases u <;> rfl

theorem getVal_swapVals_left {t q : Tid} (h : t ≠ q) :
    (s.swapVals t q).getVal t = s.getVal q := by
  cases t <;> cases q <;> simp_all [swapVals, getVal, setVal]

theorem getVal_swapVals_right {t q : Tid} (h : t ≠ q) :
    (s.swapVals t q).getVal q = s.getVal t := by
  cases t <;> cases q <;> simp_all [swapVals, getVal, setVal]

@[simp] theorem sendChan_setPc (t : Tid) (p : Pc) (u : Tid) :
    (s.setPc t p).sendChan u = s.sendChan u := by cases t <;> cases u <;> rfl

@[simp] theorem sendChan_setSlot (o : Option Tid) (u : Tid) :
    (s.setSlot o).sendChan u = s.sendChan u := by cases u <;> rfl

@[simp] theorem sendChan_setVal (t : Tid) (v : α) (u : Tid) :
    (s.setVal t v).sendChan u = s.sendChan u := by cases t <;> cases u <;> rfl

@[simp] theorem sendChan_swapVals (t q : Tid) (u : Tid) :
    (s.swapVals t q).sendChan u = s.sendChan u := by
  cases t <;> cases q <;> cases u <;> rfl

@[simp] theorem sendChan_setSendChan (t : Tid) (c : Chan) :
    (s.setSendChan t c).sendChan t = c := by cases t <;> rfl

@[simp] theorem recvChan_setPc (t : Tid) (p : Pc) (u : Tid) :
    (s.setPc t p).recvChan u = s.recvChan u := by cases t <;> cases u <;> rfl

@[simp] theorem recvChan_setSlot (o : Option Tid) (u : Tid) :
    (s.setSlot o).recvChan u = s.recvChan u := by cases u <;> rfl

@[simp] theorem recvChan_setRecvChan (t : Tid) (c : Chan) :
    (s.setRecvChan t c).recvChan t = c := by cases t <;> rfl

@[simp] theorem recvChan_swapVals (t q : Tid) (u : Tid) :
    (s.swapVals t q).recvChan u = s.recvChan u := by
  cases t <;> cases q <;> cases u <;> rfl

@[simp] theorem pcA_setPc_A (p : Pc) : (s.setPc Tid.A p).pcA = p := rfl

@[simp] theorem pcB_setPc_B (p : Pc) : (s.setPc Tid.B p).pcB = p := rfl

end Accessors

/-! ## Relabelling values

`threadStep` never inspects the exchanged values — it only moves them around.
Hence the system over an arbitrary value type is the image of the system over
`Bool` (value `false` standing for A's initial contribution, `true` for B's)
under the pointwise relabelling `mapVals f`.  This lets us settle global
properties by an exhaustive analysis of the finite `Bool` instance. -/

/-- Relabel both value bindings of a state by `f`, leaving control state,
slot and channels unchanged. -/
def mapVals {β α : Type} (f : β → α) (s : State β) : State α :=
  { slot := s.slot, pcA := s.pcA, pcB := s.pcB,
    valA := f s.valA, valB := f s.valB, chA := s.chA, chB := s.chB }

@[simp] theorem mapVals_getPc {β α : Type} (f : β → α) (s : State β) (t : Tid) :
    (mapVals f s).getPc t = s.getPc t := by cases t <;> rfl

@[simp] theorem mapVals_slot {β α : Type} (f : β → α) (s : State β) :
    (mapVals f s).slot = s.slot := rfl

@[simp] theorem mapVals_recvChan {β α : Type} (f : β → α) (s : State β) (t : Tid) :
    (mapVals f s).recvChan t = s.recvChan t := by cases t <;> rfl

@[simp] theorem mapVals_sendChan {β α : Type} (f : β → α) (s : State β) (t : Tid) :
    (mapVals f s).sendChan t = s.sendChan t := by cases t <;> rfl

@[simp] theorem mapVals_setPc {β α : Type} (f : β → α) (s : State β) (t : Tid) (p : Pc) :
    (mapVals f s).setPc t p = mapVals f (s.setPc t p) := by cases t <;> rfl

@[simp] theorem mapVals_setSlot {β α : Type} (f : β → α) (s : State β) (o : Option Tid) :
    (mapVals f s).setSlot o = mapVals f (s.setSlot o) := rfl

@[simp] theorem mapVals_setRecvChan {β α : Type} (f : β → α) (s : State β) (t : Tid) (c : Chan) :
    (mapVals f s).setRecvChan t c = mapVals f (s.setRecvChan t c) := by cases t <;> rfl

@[simp] theorem mapVals_setSendChan {β α : Type} (f : β → α) (s : State β) (t : Tid) (c : Chan) :
    (mapVals f s).setSendChan t c = mapVals f (s.setSendChan t c) := by cases t <;> rfl

@[simp] theorem mapVals_swapVals {β α : Type} (f : β → α) (s : State β) (t q : Tid) :
    (mapVals f s).swapVals t q = mapVals f (s.swapVals t q) := by
  cases t <;> cases q <;> rfl

/-- Naturality of the step function in the value type: relabelling values
commutes with every atomic step. -/
theorem threadStep_mapVals {β α : Type} (f : β → α) (s : State β) (t : Tid) :
    threadStep (mapVals f s) t = Option.map (mapVals f) (threadStep s t) := by
  unfold threadStep
  rw [mapVals_getPc]
  cases hpc : s.getPc t with
  | start =>
      rw [mapVals_slot]
      cases s.slot <;> simp
  | consume q => simp
  | notifyPeer =>
      rw [mapVals_sendChan]
      by_cases h : (s.sendChan t).receiverDropped <;> simp [h]
  | publish =>
      rw [mapVals_slot]
      cases s.slot <;> simp
  | waitRecv =>
      rw [mapVals_recvChan]
      by_cases h : (s.recvChan t).msgs > 0
      · simp [h]
      · by_cases h' : (s.recvChan t).senderDropped <;> simp [h, h']
  | done r => simp

/-! ## Exhaustive analysis of the finite `Bool` instance -/

/-- The `Bool`-valued start state: A holds `false` (its own contribution),
B holds `true`. -/
def initB : State Bool := initState false true

/-- One round of breadth-first closure. -/
def stepList (l : List (State Bool)) : List (State Bool) :=
  (l ++ l.flatMap succs).dedup

/-- Iterated closure of the successor relation from `initB`. -/
def reachN : Nat → List (State Bool)
  | 0 => [initB]
  | n + 1 => stepList (reachN n)

/-- The (finite) set of states reachable from `initB`; nine rounds reach the
fixed point. -/
def reachSet : List (State Bool) := reachN 9

theorem initB_mem_reachSet : initB ∈ reachSet := by decide

theorem reachSet_closed :
    ∀ s ∈ reachSet, ∀ u ∈ succs s, u ∈ reachSet := by decide

theorem mem_succs_of_threadStep {α : Type} {s s' : State α} {t : Tid}
    (h : threadStep s t = some s') : s' ∈ succs s := by
  cases t <;> simp [succs, h]

/-- Soundness of the closure: every `Reachable`-state of the `Bool` instance
is in the computed list. -/
theorem reachable_mem_reachSet {s : State Bool}
    (h : Reachable initB s) : s ∈ reachSet := by
  induction h with
  | refl => exact initB_mem_reachSet
  | step hr hstep ih => exact reachSet_closed _ ih _ (mem_succs_of_threadStep hstep)

/-- Every reachable state of the `Bool` instance holds the two original
values, in one order or the other. -/
theorem reachSet_vals :
    ∀ s ∈ reachSet,
      (s.valA = false ∧ s.valB = true) ∨ (s.valA = true ∧ s.valB = false) := by
  decide

/-- In every reachable state of the `Bool` instance in which both calls have
returned `Ok(())`, the values have been exchanged. -/
theorem reachSet_bothOk :
    ∀ s ∈ reachSet, s.pcA = .done (.ok ()) → s.pcB = .done (.ok ()) →
      s.valA = true ∧ s.valB = false := by
  decide

/-- Every stuck reachable state of the `Bool` instance has both calls
returned `Ok(())` — no deadlock, no failure. -/
theorem reachSet_stuck :
    ∀ s ∈ reachSet, threadStep s .A = none → threadStep s .B = none →
      bothDoneOk s := by
  decide

/-- In every reachable state of the `Bool` instance where a publisher is
blocked and its notification has arrived, the values are already
exchanged. -/
theorem reachSet_waitRecv :
    ∀ s ∈ reachSet, ∀ t : Tid, s.getPc t = .waitRecv →
      0 < (s.recvChan t).msgs → s.valA = true ∧ s.valB = false := by
  decide

/-- Fuel-indexed check that every maximal run from `s` ends, within the
fuel bound, in a state where both calls returned `Ok(())`. -/
def allOkB : Nat → State Bool → Bool
  | 0, _ => false
  | n + 1, s =>
      if (succs s).isEmpty then decide (bothDoneOk s)
      else (succs s).all (allOkB n)

theorem allOkB_initB : allOkB 9 initB = true := by decide

theorem allOkB_step {n : Nat} {s s' : State Bool} {t : Tid}
    (h : allOkB (n + 1) s = true) (hstep : threadStep s t = some s') :
    allOkB n s' = true := by
  have hmem : s' ∈ succs s := mem_succs_of_threadStep hstep
  have hne : (succs s).isEmpty = false := by
    cases hs : succs s with
    | nil => rw [hs] at hmem; cases hmem
    | cons x l => rfl
  unfold allOkB at h
  rw [if_neg (by simp [hne])] at h
  exact List.all_eq_true.mp h s' hmem

/-- Every state reachable from a relabelled start state is the relabelling of
a state reachable from the original start state. -/
theorem reachable_mapVals {β α : Type} (f : β → α) (s0 : State β) (u : State α)
    (h : Reachable (mapVals f s0) u) :
    ∃ s : State β, Reachable s0 s ∧ u = mapVals f s := by
  induction h with
  | refl => exact ⟨s0, Reachable.refl, rfl⟩
  | @step s s' t _ hstep ih =>
      obtain ⟨w, hw, rfl⟩ := ih
      rw [threadStep_mapVals] at hstep
      cases hw' : threadStep w t with
      | none => rw [hw'] at hstep; cases hstep
      | some w' =>
          rw [hw'] at hstep
          refine ⟨w', Reachable.step hw hw', ?_⟩
          simpa using hstep.symm

/-- `Reachable.step` with the acting thread explicit, convenient for building
concrete executions. -/
theorem reachable_single {α : Type} {s0 s s' : State α} (t : Tid)
    (h : Reachable s0 s) (hs : threadStep s t = some s') : Reachable s0 s' :=
  Reachable.step h hs

/-- Relabelling preserves being stuck. -/
theorem threadStep_mapVals_none {β α : Type} (f : β → α) (s : State β) (t : Tid) :
    threadStep (mapVals f s) t = none ↔ threadStep s t = none := by
  rw [threadStep_mapVals]
  cases threadStep s t <;> simp

/-- The canonical relabelling sending `false` to `a` and `true` to `b`. -/
def relabel {α : Type} (a b : α) : Bool → α := fun v => cond v b a

theorem initState_eq_mapVals {α : Type} (a b : α) :
    initState a b = mapVals (relabel a b) initB := rfl

/-- Any run of the relabelled system starting at the relabelling of a state
that passes the fuel-indexed liveness check makes fewer steps than the
fuel. -/
theorem run_bound_aux :
    ∀ (n : Nat) (sB : State Bool) {α : Type} (f : Bool → α) (p : Nat → State α),
      allOkB n sB = true → p 0 = mapVals f sB →
      ∀ N : Nat, (∀ i, i < N → Step (p i) (p (i + 1))) → N < n := by
  intro n
  induction n with
  | zero =>
      intro sB α f p h
      exact absurd h (by simp [allOkB])
  | succ n ih =>
      intro sB α f p h hp0 N hsteps
      cases N with
      | zero => exact Nat.succ_pos n
      | succ M =>
          obtain ⟨t, hstep⟩ := hsteps 0 (Nat.succ_pos M)
          rw [hp0, threadStep_mapVals] at hstep
          cases hw : threadStep sB t with
          | none => rw [hw] at hstep; cases hstep
          | some sB' =>
              rw [hw] at hstep
              have hp1 : p 1 = mapVals f sB' := (Option.some.inj hstep).symm
              have hM := ih sB' f (fun i => p (i + 1)) (allOkB_step h hw) hp1 M
                (fun i hi => hsteps (i + 1) (Nat.succ_lt_succ hi))
              exact Nat.succ_lt_succ hM


/-! ## The claims -/

/-- **C4.** The factory `swapper()` returns exactly two endpoints sharing one
single freshly allocated Exchange Slot initialized to empty (null), with
their notification channels cross-wired: endpoint A's sender feeds endpoint
B's receiver and vice versa (and neither endpoint's sender feeds its own
receiver); the factory is a total pure allocation with no error
conditions. -/
theorem claim_C4_factory :
    swapper.1.contents = swapper.2.contents ∧
    slotInit = none ∧
    swapper.1.notify = swapper.2.wait ∧
    swapper.2.notify = swapper.1.wait ∧
    swapper.1.wait ≠ swapper.2.wait ∧
    swapper.1.notify ≠ swapper.1.wait ∧
    swapper.2.notify ≠ swapper.2.wait :=
  ⟨rfl, rfl, rfl, rfl, by decide, by decide, by decide⟩

/-- **C1.** For every pair of values `a`, `b`, when the two endpoints of one
swapper pair each call `swap` concurrently (A's binding holding `a`, B's
holding `b`), every state reachable under any interleaving holds no value
other than `a` and `b` in either binding, and once both calls have returned
success, A's binding holds exactly `b` and B's binding holds exactly `a`. -/
theorem claim_C1_roundtrip {α : Type} (a b : α) (s : State α)
    (h : Reachable (initState a b) s) :
    ((s.valA = a ∧ s.valB = b) ∨ (s.valA = b ∧ s.valB = a)) ∧
    (s.pcA = .done (.ok ()) → s.pcB = .done (.ok ()) →
      s.valA = b ∧ s.valB = a) := by
  rw [initState_eq_mapVals] at h
  obtain ⟨w, hw, rfl⟩ := reachable_mapVals _ _ _ h
  have hmem := reachable_mem_reachSet hw
  constructor
  · rcases reachSet_vals w hmem with ⟨h1, h2⟩ | ⟨h1, h2⟩
    · exact Or.inl (by simp [mapVals, relabel, h1, h2])
    · exact Or.inr (by simp [mapVals, relabel, h1, h2])
  · intro hA hB
    have hv := reachSet_bothOk w hmem hA hB
    simp [mapVals, relabel, hv.1, hv.2]

/-- Witness for C1: the complete interleaving of the test in
`tests/lib.rs` (with `1` for `"world"`-side value a and `2` for b), run to
its final state. -/
theorem claim_C1_roundtrip_witness :
    ((({ slot := none, pcA := .done (.ok ()), pcB := .done (.ok ()),
         valA := 2, valB := 1, chA := chanInit, chB := chanInit } :
           State Nat).valA = 1 ∧
      ({ slot := none, pcA := .done (.ok ()), pcB := .done (.ok ()),
         valA := 2, valB := 1, chA := chanInit, chB := chanInit } :
           State Nat).valB = 2) ∨
     (({ slot := none, pcA := .done (.ok ()), pcB := .done (.ok ()),
         valA := 2, valB := 1, chA := chanInit, chB := chanInit } :
           State Nat).valA = 2 ∧
      ({ slot := none, pcA := .done (.ok ()), pcB := .done (.ok ()),
         valA := 2, valB := 1, chA := chanInit, chB := chanInit } :
           State Nat).valB = 1)) ∧
    (({ slot := none, pcA := .done (.ok ()), pcB := .done (.ok ()),
        valA := 2, valB := 1, chA := chanInit, chB := chanInit } :
          State Nat).pcA = .done (.ok ()) →
     ({ slot := none, pcA := .done (.ok ()), pcB := .done (.ok ()),
        valA := 2, valB := 1, chA := chanInit, chB := chanInit } :
          State Nat).pcB = .done (.ok ()) →
     ({ slot := none, pcA := .done (.ok ()), pcB := .done (.ok ()),
        valA := 2, valB := 1, chA := chanInit, chB := chanInit } :
          State Nat).valA = 2 ∧
     ({ slot := none, pcA := .done (.ok ()), pcB := .done (.ok ()),
        valA := 2, valB := 1, chA := chanInit, chB := chanInit } :
          State Nat).valB = 1) := by
  refine claim_C1_roundtrip 1 2 _ ?_
  exact reachable_single Tid.A (reachable_single Tid.B (reachable_single Tid.B
    (reachable_single Tid.B (reachable_single Tid.A (reachable_single Tid.A
      Reachable.refl rfl) rfl) rfl) rfl) rfl) rfl

/-- **C8.** If both endpoints call `swap` around the same time then, for
every interleaving of the two-step algorithm: any reachable state in which
neither thread can move has both calls returned `Ok(())` (the primitive is
never deadlocked or failed), and every run from the start state makes fewer
than 9 atomic steps, so both calls return after finitely many steps under
any scheduling. -/
theorem claim_C8_liveness {α : Type} (a b : α) :
    (∀ s : State α, Reachable (initState a b) s →
       (∀ t, threadStep s t = none) → bothDoneOk s) ∧
    (∀ p : Nat → State α, p 0 = initState a b →
       ∀ N : Nat, (∀ i, i < N → Step (p i) (p (i + 1))) → N < 9) := by
  constructor
  · intro s h hstuck
    rw [initState_eq_mapVals] at h
    obtain ⟨w, hw, rfl⟩ := reachable_mapVals _ _ _ h
    have hmem := reachable_mem_reachSet hw
    have hA : threadStep w Tid.A = none :=
      (threadStep_mapVals_none _ _ _).mp (hstuck Tid.A)
    have hB : threadStep w Tid.B = none :=
      (threadStep_mapVals_none _ _ _).mp (hstuck Tid.B)
    exact reachSet_stuck w hmem hA hB
  · intro p hp0 N hsteps
    exact run_bound_aux 9 initB (relabel a b) p allOkB_initB
      (by rw [hp0, initState_eq_mapVals]) N hsteps

/-- Witness for C8: the final state of the complete interleaving is stuck
with both calls returned `Ok(())`, and the trivial zero-length run respects
the step bound. -/
theorem claim_C8_liveness_witness :
    bothDoneOk ({ slot := none, pcA := .done (.ok ()), pcB := .done (.ok ()),
                  valA := 2, valB := 1, chA := chanInit,
                  chB := chanInit } : State Nat) ∧
    (0 : Nat) < 9 := by
  constructor
  · refine (claim_C8_liveness (1 : Nat) 2).1 _ ?_ ?_
    · exact reachable_single Tid.A (reachable_single Tid.B (reachable_single Tid.B
        (reachable_single Tid.B (reachable_single Tid.A (reachable_single Tid.A
          Reachable.refl rfl) rfl) rfl) rfl) rfl) rfl
    · intro t; cases t <;> rfl
  · exact (claim_C8_liveness (1 : Nat) 2).2 (fun _ => initState 1 2) rfl 0
      (fun i hi => absurd hi (Nat.not_lt_zero i))

/-! ## Characterization of the individual atomic steps -/

section StepLemmas

variable {α : Type} (s : State α) (t q : Tid)

/-- Take-and-clear on an occupied slot: enter the consumer branch. -/
theorem threadStep_start_occupied (h1 : s.getPc t = .start)
    (h2 : s.slot = some q) :
    threadStep s t = some ((s.setSlot none).setPc t (.consume q)) := by
  simp [threadStep, h1, h2]

/-- Take-and-clear on an empty slot: fall through to the publish attempt. -/
theorem threadStep_start_empty (h1 : s.getPc t = .start) (h2 : s.slot = none) :
    threadStep s t = some ((s.setSlot none).setPc t .publish) := by
  simp [threadStep, h1, h2]

/-- `mem::swap(our_ref, their_ref)`: the in-place exchange. -/
theorem threadStep_consume (h : s.getPc t = .consume q) :
    threadStep s t = some ((s.swapVals t q).setPc t .notifyPeer) := by
  simp [threadStep, h]

/-- `self.notify.send(())` with the peer's receiver alive: queue one signal
and return `Ok(())`. -/
theorem threadStep_notify_ok (h : s.getPc t = .notifyPeer)
    (hd : (s.sendChan t).receiverDropped = false) :
    threadStep s t = some ((s.setSendChan t
      { s.sendChan t with msgs := (s.sendChan t).msgs + 1 }).setPc t
        (.done (.ok ()))) := by
  simp [threadStep, h, hd]

/-- `self.notify.send(())` with the peer's receiver dropped: return
`Err(SwapError)`. -/
theorem threadStep_notify_fail (h : s.getPc t = .notifyPeer)
    (hd : (s.sendChan t).receiverDropped = true) :
    threadStep s t = some (s.setPc t (.done (.error ⟨⟩))) := by
  simp [threadStep, h, hd]

/-- Successful compare-and-swap publish: deposit `our_ref` and go wait. -/
theorem threadStep_cas_ok (h : s.getPc t = .publish) (hs : s.slot = none) :
    threadStep s t = some ((s.setSlot (some t)).setPc t .waitRecv) := by
  simp [threadStep, h, hs]

/-- Failed compare-and-swap publish (slot became occupied): retry the loop,
touching nothing else. -/
theorem threadStep_cas_fail (h : s.getPc t = .publish) (hs : s.slot = some q) :
    threadStep s t = some (s.setPc t .start) := by
  simp [threadStep, h, hs]

/-- `self.wait.recv()` with a queued signal: consume it and return
`Ok(())`. -/
theorem threadStep_recv_ok (h : s.getPc t = .waitRecv)
    (hm : 0 < (s.recvChan t).msgs) :
    threadStep s t = some ((s.setRecvChan t
      { s.recvChan t with msgs := (s.recvChan t).msgs - 1 }).setPc t
        (.done (.ok ()))) := by
  simp [threadStep, h, hm]

/-- `self.wait.recv()` with no signal and the peer's sender dropped: return
`Err(SwapError)`. -/
theorem threadStep_recv_fail (h : s.getPc t = .waitRecv)
    (hm : (s.recvChan t).msgs = 0)
    (hd : (s.recvChan t).senderDropped = true) :
    threadStep s t = some (s.setPc t (.done (.error ⟨⟩))) := by
  simp [threadStep, h, hm, hd]

/-- `self.wait.recv()` with no signal and the sender alive: the thread is
blocked. -/
theorem threadStep_recv_blocked (h : s.getPc t = .waitRecv)
    (hm : (s.recvChan t).msgs = 0)
    (hd : (s.recvChan t).senderDropped = false) :
    threadStep s t = none := by
  simp [threadStep, h, hm, hd]

/-- A returned call makes no further step. -/
theorem threadStep_done (r : Except SwapError Unit) (h : s.getPc t = .done r) :
    threadStep s t = none := by
  simp [threadStep, h]

end StepLemmas

/-- **C2.** Every call to `swap` in which the atomic take-and-clear of the
Exchange Slot returns a non-empty occupant takes the consumer role: it
exchanges the contents of the caller's value with the contents referenced by
the occupant in place, then sends one signal on its outgoing notification
channel, and (when that send succeeds) returns `Ok(())`, performing no
further slot operations in that call. -/
theorem claim_C2_consumer {α : Type} (s : State α) (t q : Tid)
    (hpc : s.getPc t = .start) (hslot : s.slot = some q) :
    ∃ s1 s2 : State α,
      threadStep s t = some s1 ∧
      s1 = (s.setSlot none).setPc t (.consume q) ∧
      threadStep s1 t = some s2 ∧
      s2 = (s1.swapVals t q).setPc t .notifyPeer ∧
      (t ≠ q → s2.getVal t = s.getVal q ∧ s2.getVal q = s.getVal t) ∧
      s2.slot = s1.slot ∧
      ((s.sendChan t).receiverDropped = false →
        ∃ s3 : State α,
          threadStep s2 t = some s3 ∧
          s3.getPc t = .done (.ok ()) ∧
          (s3.sendChan t).msgs = (s.sendChan t).msgs + 1 ∧
          s3.slot = s1.slot) := by
  refine ⟨_, _, threadStep_start_occupied s t q hpc hslot, rfl,
    threadStep_consume _ t q (by simp), rfl, ?_, by simp, ?_⟩
  · intro hne
    exact ⟨by simp [getVal_swapVals_left _ hne],
           by simp [getVal_swapVals_right _ hne]⟩
  · intro hdrop
    refine ⟨_, threadStep_notify_ok _ t (by simp) (by simpa using hdrop),
      by simp, by simp, by simp⟩

/-- Start state for the C2 witness: endpoint B has published and blocks,
endpoint A is about to take-and-clear. -/
def stC2 : State Nat :=
  { slot := some Tid.B, pcA := .start, pcB := .waitRecv,
    valA := 1, valB := 2, chA := chanInit, chB := chanInit }

/-- Witness for C2: the consumer path evaluated at a concrete state. -/
theorem claim_C2_consumer_witness :
    ∃ s1 s2 : State Nat,
      threadStep stC2 Tid.A = some s1 ∧
      s1 = (stC2.setSlot none).setPc Tid.A (.consume Tid.B) ∧
      threadStep s1 Tid.A = some s2 ∧
      s2 = (s1.swapVals Tid.A Tid.B).setPc Tid.A .notifyPeer ∧
      (Tid.A ≠ Tid.B →
        s2.getVal Tid.A = stC2.getVal Tid.B ∧
        s2.getVal Tid.B = stC2.getVal Tid.A) ∧
      s2.slot = s1.slot ∧
      ((stC2.sendChan Tid.A).receiverDropped = false →
        ∃ s3 : State Nat,
          threadStep s2 Tid.A = some s3 ∧
          s3.getPc Tid.A = .done (.ok ()) ∧
          (s3.sendChan Tid.A).msgs = (stC2.sendChan Tid.A).msgs + 1 ∧
          s3.slot = s1.slot) :=
  claim_C2_consumer stC2 Tid.A Tid.B rfl rfl

/-- **C3.** Every call to `swap` that finds the Exchange Slot empty and whose
compare-and-swap publish succeeds takes the publisher role: the publish
deposits a reference to the caller's value and moves to the blocking
receive; while no notification is queued (and the peer alive) the thread
cannot move; when a notification arrives it returns `Ok(())` without
touching the slot again; and in every reachable such state the caller's
value already holds the peer's contribution. -/
theorem claim_C3_publisher (α : Type) :
    (∀ (s : State α) (t : Tid), s.getPc t = .publish → s.slot = none →
       threadStep s t = some ((s.setSlot (some t)).setPc t .waitRecv) ∧
       ((s.setSlot (some t)).setPc t .waitRecv).getPc t = .waitRecv ∧
       ((s.setSlot (some t)).setPc t .waitRecv).slot = some t) ∧
    (∀ (s : State α) (t : Tid), s.getPc t = .waitRecv →
       (s.recvChan t).msgs = 0 → (s.recvChan t).senderDropped = false →
       threadStep s t = none) ∧
    (∀ (s : State α) (t : Tid), s.getPc t = .waitRecv →
       0 < (s.recvChan t).msgs →
       ∃ s' : State α, threadStep s t = some s' ∧
         s'.getPc t = .done (.ok ()) ∧ s'.slot = s.slot) ∧
    (∀ (a b : α) (s : State α) (t : Tid), Reachable (initState a b) s →
       s.getPc t = .waitRecv → 0 < (s.recvChan t).msgs →
       s.valA = b ∧ s.valB = a) := by
  refine ⟨?_, ?_, ?_, ?_⟩
  · intro s t hpc hslot
    exact ⟨threadStep_cas_ok s t hpc hslot, by simp, by simp⟩
  · intro s t hpc hm hd
    exact threadStep_recv_blocked s t hpc hm hd
  · intro s t hpc hm
    exact ⟨_, threadStep_recv_ok s t hpc hm, by simp, by simp⟩
  · intro a b s t h hpc hm
    rw [initState_eq_mapVals] at h
    obtain ⟨w, hw, rfl⟩ := reachable_mapVals _ _ _ h
    have hmem := reachable_mem_reachSet hw
    have hv := reachSet_waitRecv w hmem t (by simpa using hpc) (by simpa using hm)
    simp [mapVals, relabel, hv.1, hv.2]

/-- C3 witness state: about to publish on an empty slot. -/
def stC3a : State Nat :=
  { slot := none, pcA := .publish, pcB := .start,
    valA := 1, valB := 2, chA := chanInit, chB := chanInit }

/-- C3 witness state: published and blocked, no notification yet. -/
def stC3b : State Nat :=
  { slot := some Tid.A, pcA := .waitRecv, pcB := .start,
    valA := 1, valB := 2, chA := chanInit, chB := chanInit }

/-- C3 witness state: published, consumed by the peer, notification
queued. -/
def stC3c : State Nat :=
  { slot := none, pcA := .waitRecv, pcB := .done (.ok ()),
    valA := 2, valB := 1,
    chA := { msgs := 1, senderDropped := false, receiverDropped := false },
    chB := chanInit }

/-- Witness for C3: the publisher path evaluated at concrete states;
`stC3c` is reached from `initState 1 2` by an explicit execution. -/
theorem claim_C3_publisher_witness :
    (threadStep stC3a Tid.A =
       some ((stC3a.setSlot (some Tid.A)).setPc Tid.A .waitRecv) ∧
     ((stC3a.setSlot (some Tid.A)).setPc Tid.A .waitRecv).getPc Tid.A =
       .waitRecv ∧
     ((stC3a.setSlot (some Tid.A)).setPc Tid.A .waitRecv).slot = some Tid.A) ∧
    threadStep stC3b Tid.A = none ∧
    (∃ s' : State Nat, threadStep stC3c Tid.A = some s' ∧
       s'.getPc Tid.A = .done (.ok ()) ∧ s'.slot = stC3c.slot) ∧
    (stC3c.valA = 2 ∧ stC3c.valB = 1) := by
  refine ⟨(claim_C3_publisher Nat).1 stC3a Tid.A rfl rfl,
    (claim_C3_publisher Nat).2.1 stC3b Tid.A rfl rfl rfl,
    (claim_C3_publisher Nat).2.2.1 stC3c Tid.A rfl (by decide),
    (claim_C3_publisher Nat).2.2.2 1 2 stC3c Tid.A ?_ rfl (by decide)⟩
  exact reachable_single Tid.B (reachable_single Tid.B (reachable_single Tid.B
    (reachable_single Tid.A (reachable_single Tid.A
      Reachable.refl rfl) rfl) rfl) rfl) rfl

/-- **C5.** `swap` returns an error if and only if the outgoing notification
send or the incoming notification receive fails (the peer's channel half
being dropped): every step that produces an `Err` result is exactly a failed
send or a failed receive and transitions directly to the returned state (no
internal retry after the channel failure); conversely a failed send or
failed receive always surfaces the error immediately; and `SwapError` has a
single value. -/
theorem claim_C5_error_iff (α : Type) :
    (∀ e e' : SwapError, e = e') ∧
    (∀ (s s' : State α) (t : Tid) (e : SwapError),
       threadStep s t = some s' → s'.getPc t = .done (.error e) →
       (s.getPc t = .notifyPeer ∧ (s.sendChan t).receiverDropped = true ∧
        s' = s.setPc t (.done (.error ⟨⟩))) ∨
       (s.getPc t = .waitRecv ∧ (s.recvChan t).msgs = 0 ∧
        (s.recvChan t).senderDropped = true ∧
        s' = s.setPc t (.done (.error ⟨⟩)))) ∧
    (∀ (s : State α) (t : Tid), s.getPc t = .notifyPeer →
       (s.sendChan t).receiverDropped = true →
       threadStep s t = some (s.setPc t (.done (.error ⟨⟩)))) ∧
    (∀ (s : State α) (t : Tid), s.getPc t = .waitRecv →
       (s.recvChan t).msgs = 0 → (s.recvChan t).senderDropped = true →
       threadStep s t = some (s.setPc t (.done (.error ⟨⟩)))) := by
  refine ⟨fun e e' => by cases e; cases e'; rfl, ?_, ?_, ?_⟩
  · intro s s' t e hstep hdone
    cases hpc : s.getPc t with
    | start =>
        exfalso
        cases hslot : s.slot with
        | none =>
            rw [threadStep_start_empty s t hpc hslot] at hstep
            obtain rfl := Option.some.inj hstep
            simp at hdone
        | some q =>
            rw [threadStep_start_occupied s t q hpc hslot] at hstep
            obtain rfl := Option.some.inj hstep
            simp at hdone
    | consume q =>
        exfalso
        rw [threadStep_consume s t q hpc] at hstep
        obtain rfl := Option.some.inj hstep
        simp at hdone
    | notifyPeer =>
        cases hd : (s.sendChan t).receiverDropped with
        | false =>
            exfalso
            rw [threadStep_notify_ok s t hpc hd] at hstep
            obtain rfl := Option.some.inj hstep
            simp at hdone
        | true =>
            rw [threadStep_notify_fail s t hpc hd] at hstep
            obtain rfl := Option.some.inj hstep
            exact Or.inl ⟨rfl, rfl, rfl⟩
    | publish =>
        exfalso
        cases hslot : s.slot with
        | none =>
            rw [threadStep_cas_ok s t hpc hslot] at hstep
            obtain rfl := Option.some.inj hstep
            simp at hdone
        | some q =>
            rw [threadStep_cas_fail s t q hpc hslot] at hstep
            obtain rfl := Option.some.inj hstep
            simp at hdone
    | waitRecv =>
        rcases Nat.eq_zero_or_pos (s.recvChan t).msgs with hm | hm
        · cases hd : (s.recvChan t).senderDropped with
          | false =>
              exfalso
              rw [threadStep_recv_blocked s t hpc hm hd] at hstep
              cases hstep
          | true =>
              rw [threadStep_recv_fail s t hpc hm hd] at hstep
              obtain rfl := Option.some.inj hstep
              exact Or.inr ⟨rfl, hm, rfl, rfl⟩
        · exfalso
          rw [threadStep_recv_ok s t hpc hm] at hstep
          obtain rfl := Option.some.inj hstep
          simp at hdone
    | done r =>
        exfalso
        rw [threadStep_done s t r hpc] at hstep
        cases hstep
  · intro s t hpc hd
    exact threadStep_notify_fail s t hpc hd
  · intro s t hpc hm hd
    exact threadStep_recv_fail s t hpc hm hd

/-- C5 witness state: consumer about to send with the peer's receiver
dropped. -/
def stC5 : State Nat :=
  { slot := none, pcA := .notifyPeer, pcB := .done (.ok ()),
    valA := 2, valB := 1, chA := chanInit,
    chB := { msgs := 0, senderDropped := false, receiverDropped := true } }

/-- C5 witness state: publisher blocked with the peer's sender dropped. -/
def stC5r : State Nat :=
  { slot := some Tid.A, pcA := .waitRecv, pcB := .done (.ok ()),
    valA := 1, valB := 2,
    chA := { msgs := 0, senderDropped := true, receiverDropped := false },
    chB := chanInit }

/-- Witness for C5: both failure directions evaluated at concrete states. -/
theorem claim_C5_error_iff_witness :
    ((⟨⟩ : SwapError) = ⟨⟩) ∧
    ((stC5.getPc Tid.A = .notifyPeer ∧
      (stC5.sendChan Tid.A).receiverDropped = true ∧
      stC5.setPc Tid.A (.done (.error ⟨⟩)) =
        stC5.setPc Tid.A (.done (.error ⟨⟩))) ∨
     (stC5.getPc Tid.A = .waitRecv ∧ (stC5.recvChan Tid.A).msgs = 0 ∧
      (stC5.recvChan Tid.A).senderDropped = true ∧
      stC5.setPc Tid.A (.done (.error ⟨⟩)) =
        stC5.setPc Tid.A (.done (.error ⟨⟩)))) ∧
    threadStep stC5 Tid.A = some (stC5.setPc Tid.A (.done (.error ⟨⟩))) ∧
    threadStep stC5r Tid.A = some (stC5r.setPc Tid.A (.done (.error ⟨⟩))) :=
  ⟨(claim_C5_error_iff Nat).1 ⟨⟩ ⟨⟩,
   (claim_C5_error_iff Nat).2.1 stC5 (stC5.setPc Tid.A (.done (.error ⟨⟩)))
     Tid.A ⟨⟩ rfl rfl,
   (claim_C5_error_iff Nat).2.2.1 stC5 Tid.A rfl rfl,
   (claim_C5_error_iff Nat).2.2.2 stC5r Tid.A rfl rfl rfl⟩

/-- **C6.** Within a single call to `swap`, the only transition that returns
the thread to the top of the loop is a failed compare-and-swap publish, with
the slot non-empty at that moment; the retry changes nothing but the program
counter (in particular no channel failure ever causes the loop to
repeat). -/
theorem claim_C6_retry_only_cas {α : Type} (s s' : State α) (t : Tid)
    (hstep : threadStep s t = some s') (hret : s'.getPc t = .start) :
    s.getPc t = .publish ∧ (∃ q, s.slot = some q) ∧
    s' = s.setPc t .start := by
  cases hpc : s.getPc t with
  | start =>
      exfalso
      cases hslot : s.slot with
      | none =>
          rw [threadStep_start_empty s t hpc hslot] at hstep
          obtain rfl := Option.some.inj hstep
          simp at hret
      | some q =>
          rw [threadStep_start_occupied s t q hpc hslot] at hstep
          obtain rfl := Option.some.inj hstep
          simp at hret
  | consume q =>
      exfalso
      rw [threadStep_consume s t q hpc] at hstep
      obtain rfl := Option.some.inj hstep
      simp at hret
  | notifyPeer =>
      exfalso
      cases hd : (s.sendChan t).receiverDropped with
      | false =>
          rw [threadStep_notify_ok s t hpc hd] at hstep
          obtain rfl := Option.some.inj hstep
          simp at hret
      | true =>
          rw [threadStep_notify_fail s t hpc hd] at hstep
          obtain rfl := Option.some.inj hstep
          simp at hret
  | publish =>
      cases hslot : s.slot with
      | none =>
          exfalso
          rw [threadStep_cas_ok s t hpc hslot] at hstep
          obtain rfl := Option.some.inj hstep
          simp at hret
      | some q =>
          rw [threadStep_cas_fail s t q hpc hslot] at hstep
          obtain rfl := Option.some.inj hstep
          exact ⟨rfl, ⟨q, rfl⟩, rfl⟩
  | waitRecv =>
      exfalso
      rcases Nat.eq_zero_or_pos (s.recvChan t).msgs with hm | hm
      · cases hd : (s.recvChan t).senderDropped with
        | false =>
            rw [threadStep_recv_blocked s t hpc hm hd] at hstep
            cases hstep
        | true =>
            rw [threadStep_recv_fail s t hpc hm hd] at hstep
            obtain rfl := Option.some.inj hstep
            simp at hret
      · rw [threadStep_recv_ok s t hpc hm] at hstep
        obtain rfl := Option.some.inj hstep
        simp at hret
  | done r =>
      exfalso
      rw [threadStep_done s t r hpc] at hstep
      cases hstep

/-- C6 witness state: publish attempt racing with the peer's publication
already in the slot. -/
def stC6 : State Nat :=
  { slot := some Tid.B, pcA := .publish, pcB := .waitRecv,
    valA := 1, valB := 2, chA := chanInit, chB := chanInit }

/-- Witness for C6: the retry edge evaluated at a concrete racing state. -/
theorem claim_C6_retry_only_cas_witness :
    stC6.getPc Tid.A = .publish ∧ (∃ q, stC6.slot = some q) ∧
    stC6.setPc Tid.A .start = stC6.setPc Tid.A .start :=
  claim_C6_retry_only_cas stC6 (stC6.setPc Tid.A .start) Tid.A rfl rfl

/-- **C7.** The Exchange Slot holds at most one non-empty occupant at a
time, and every step that mutates the slot is either the atomic
take-and-clear (which empties it) or the atomic compare-and-swap publish
(which fills it only from empty); no other step of any call ever changes the
slot. -/
theorem claim_C7_slot_discipline (α : Type) :
    (∀ s : State α, s.slot = none ∨ ∃! x, s.slot = some x) ∧
    (∀ (s s' : State α) (t : Tid), threadStep s t = some s' →
       s'.slot ≠ s.slot →
       (s.getPc t = .start ∧ s'.slot = none) ∨
       (s.getPc t = .publish ∧ s.slot = none ∧ s'.slot = some t)) := by
  constructor
  · intro s
    cases h : s.slot with
    | none => exact Or.inl rfl
    | some x =>
        refine Or.inr ⟨x, rfl, fun y hy => ?_⟩
        exact (Option.some.inj hy).symm
  · intro s s' t hstep hne
    cases hpc : s.getPc t with
    | start =>
        cases hslot : s.slot with
        | none =>
            rw [threadStep_start_empty s t hpc hslot] at hstep
            obtain rfl := Option.some.inj hstep
            exact Or.inl ⟨rfl, by simp⟩
        | some q =>
            rw [threadStep_start_occupied s t q hpc hslot] at hstep
            obtain rfl := Option.some.inj hstep
            exact Or.inl ⟨rfl, by simp⟩
    | consume q =>
        exfalso
        rw [threadStep_consume s t q hpc] at hstep
        obtain rfl := Option.some.inj hstep
        exact hne (by simp)
    | notifyPeer =>
        exfalso
        cases hd : (s.sendChan t).receiverDropped with
        | false =>
            rw [threadStep_notify_ok s t hpc hd] at hstep
            obtain rfl := Option.some.inj hstep
            exact hne (by simp)
        | true =>
            rw [threadStep_notify_fail s t hpc hd] at hstep
            obtain rfl := Option.some.inj hstep
            exact hne (by simp)
    | publish =>
        cases hslot : s.slot with
        | none =>
            rw [threadStep_cas_ok s t hpc hslot] at hstep
            obtain rfl := Option.some.inj hstep
            exact Or.inr ⟨rfl, rfl, by simp⟩
        | some q =>
            exfalso
            rw [threadStep_cas_fail s t q hpc hslot] at hstep
            obtain rfl := Option.some.inj hstep
            exact hne (by simp)
    | waitRecv =>
        exfalso
        rcases Nat.eq_zero_or_pos (s.recvChan t).msgs with hm | hm
        · cases hd : (s.recvChan t).senderDropped with
          | false =>
              rw [threadStep_recv_blocked s t hpc hm hd] at hstep
              cases hstep
          | true =>
              rw [threadStep_recv_fail s t hpc hm hd] at hstep
              obtain rfl := Option.some.inj hstep
              exact hne (by simp)
        · rw [threadStep_recv_ok s t hpc hm] at hstep
          obtain rfl := Option.some.inj hstep
          exact hne (by simp)
    | done r =>
        exfalso
        rw [threadStep_done s t r hpc] at hstep
        cases hstep

/-- C7 witness state: a publisher about to fill the empty slot. -/
def stC7 : State Nat :=
  { slot := none, pcA := .publish, pcB := .start,
    valA := 1, valB := 2, chA := chanInit, chB := chanInit }

/-- Witness for C7: the slot invariant at a concrete state and the
compare-and-swap mutation evaluated concretely. -/
theorem claim_C7_slot_discipline_witness :
    (stC7.slot = none ∨ ∃! x, stC7.slot = some x) ∧
    ((stC7.getPc Tid.A = .start ∧
      ((stC7.setSlot (some Tid.A)).setPc Tid.A .waitRecv).slot = none) ∨
     (stC7.getPc Tid.A = .publish ∧ stC7.slot = none ∧
      ((stC7.setSlot (some Tid.A)).setPc Tid.A .waitRecv).slot = some Tid.A)) :=
  ⟨(claim_C7_slot_discipline Nat).1 stC7,
   (claim_C7_slot_discipline Nat).2 stC7
     ((stC7.setSlot (some Tid.A)).setPc Tid.A .waitRecv) Tid.A rfl
     (by decide)⟩

/-- **C9.** A `swap` call that takes the consumer role and whose subsequent
notification send fails (the peer's receiver was dropped) returns
`Err(SwapError)` even though the in-place exchange has already been
performed: after the error the caller's binding holds the peer's
contribution and the peer's memory holds the caller's — the error path is
not atomic. -/
theorem claim_C9_consumer_error_not_atomic {α : Type} (s : State α)
    (t q : Tid) (hne : t ≠ q) (hpc : s.getPc t = .start)
    (hslot : s.slot = some q)
    (hdrop : (s.sendChan t).receiverDropped = true) :
    ∃ s1 s2 s3 : State α,
      threadStep s t = some s1 ∧ threadStep s1 t = some s2 ∧
      threadStep s2 t = some s3 ∧
      s3.getPc t = .done (.error ⟨⟩) ∧
      s3.getVal t = s.getVal q ∧ s3.getVal q = s.getVal t := by
  refine ⟨_, _, _, threadStep_start_occupied s t q hpc hslot,
    threadStep_consume _ t q (by simp),
    threadStep_notify_fail _ t (by simp) (by simpa using hdrop),
    by simp, ?_, ?_⟩
  · simp [getVal_swapVals_left _ hne]
  · simp [getVal_swapVals_right _ hne]

/-- C9 witness state: B published and its whole endpoint (receiver
included) is gone; A consumes and then fails to notify. -/
def stC9 : State Nat :=
  { slot := some Tid.B, pcA := .start, pcB := .done (.error ⟨⟩),
    valA := 1, valB := 2, chA := chanInit,
    chB := { msgs := 0, senderDropped := false, receiverDropped := true } }

/-- Witness for C9: the non-atomic error path evaluated concretely. -/
theorem claim_C9_consumer_error_not_atomic_witness :
    ∃ s1 s2 s3 : State Nat,
      threadStep stC9 Tid.A = some s1 ∧ threadStep s1 Tid.A = some s2 ∧
      threadStep s2 Tid.A = some s3 ∧
      s3.getPc Tid.A = .done (.error ⟨⟩) ∧
      s3.getVal Tid.A = stC9.getVal Tid.B ∧
      s3.getVal Tid.B = stC9.getVal Tid.A :=
  claim_C9_consumer_error_not_atomic stC9 Tid.A Tid.B (by decide) rfl rfl rfl

/-- **C10.** A `swap` call that takes the publisher role and whose blocking
receive fails (the peer was destroyed without consuming) returns
`Err(SwapError)` while the Exchange Slot still holds the pointer this call
published: the failing call does not clear its own publication, so the slot
remains non-empty after the failed call. -/
theorem claim_C10_publisher_error_leaves_slot {α : Type} (s : State α)
    (t : Tid) (hpc : s.getPc t = .publish) (hslot : s.slot = none)
    (hm : (s.recvChan t).msgs = 0)
    (hd : (s.recvChan t).senderDropped = true) :
    ∃ s1 s2 : State α,
      threadStep s t = some s1 ∧ s1.slot = some t ∧
      s1.getPc t = .waitRecv ∧
      threadStep s1 t = some s2 ∧
      s2.getPc t = .done (.error ⟨⟩) ∧ s2.slot = some t := by
  refine ⟨_, _, threadStep_cas_ok s t hpc hslot, by simp, by simp,
    threadStep_recv_fail _ t (by simp) (by simpa using hm)
      (by simpa using hd), by simp, by simp⟩

/-- C10 witness state: A about to publish while B's endpoint (its sender
included) is already gone. -/
def stC10 : State Nat :=
  { slot := none, pcA := .publish, pcB := .done (.error ⟨⟩),
    valA := 1, valB := 2,
    chA := { msgs := 0, senderDropped := true, receiverDropped := false },
    chB := chanInit }

/-- Witness for C10: the failing publisher path evaluated concretely. -/
theorem claim_C10_publisher_error_leaves_slot_witness :
    ∃ s1 s2 : State Nat,
      threadStep stC10 Tid.A = some s1 ∧ s1.slot = some Tid.A ∧
      s1.getPc Tid.A = .waitRecv ∧
      threadStep s1 Tid.A = some s2 ∧
      s2.getPc Tid.A = .done (.error ⟨⟩) ∧ s2.slot = some Tid.A :=
  claim_C10_publisher_error_leaves_slot stC10 Tid.A rfl rfl rfl rfl
